import Mathlib

/-!
Shallow embedding of the WeatherVoyager balloon pipeline.

Sources embedded here:
- `app/api/balloon-history/route.ts` (reproduced in the repository README):
  `buildBalloonHistory`, `roundToGrid`, `clusterLatestPointsIntoCells`,
  `weatherCacheKey`, `fetchOpenMeteoBatch`, `fetchWeatherForAllBalloons`, `GET`.
- `lib/windborne.ts`: `extractPointsFromSnapshot`.
- `lib/weather.ts`: `fetchWeatherForBalloons`.
- `lib/redis.ts`: `getRedisClient` (modelled as the `CacheClient` parameter).

JavaScript numbers are modelled as `JNum`: an exact rational for every finite
value plus explicit `nan`, `inf`, `ninf` values, so that the `Number.isNaN` /
`Number.isFinite` / comparison logic of the source can be reproduced exactly.
Network and cache I/O are modelled as oracle parameters; timestamps (ISO
strings in the source) are modelled by the underlying millisecond integer.
-/

namespace WeatherVoyager

/-- A JavaScript number: a finite (exact rational) value, `NaN`, or ±Infinity. -/
inductive JNum where
  | fin (q : ℚ)
  | nan
  | inf
  | ninf
deriving DecidableEq, Repr

namespace JNum

/-- JS `Number.isFinite`. -/
def isFinite : JNum → Bool
  | fin _ => true
  | _ => false

/-- JS `<` on numbers: any comparison with `NaN` is false. -/
def jlt : JNum → JNum → Bool
  | fin a, fin b => a < b
  | nan, _ => false
  | _, nan => false
  | ninf, ninf => false
  | ninf, _ => true
  | _, ninf => false
  | inf, _ => false
  | fin _, inf => true

/-- JS `>` on numbers (`a > b` behaves as `b < a`). -/
def jgt (a b : JNum) : Bool := jlt b a

/-- JS division by a nonzero rational constant (used for `windspeed / 3.6`). -/
def divConst : JNum → ℚ → JNum
  | fin q, c => fin (q / c)
  | nan, _ => nan
  | inf, _ => inf
  | ninf, _ => ninf

end JNum

/-- A JSON value as far as the pipeline inspects it.  `num` is a value of JS
type `number`; `jnull` is JSON `null`; `arr` is an array (its `coerced` field
records the JS `Number(...)` coercion of the whole array, carried as data);
`other` is any remaining value (string, boolean, object) together with its
`Number(...)` coercion.  Example: the string `"bad"` is `other nan`. -/
inductive Json where
  | num (v : JNum)
  | jnull
  | arr (xs : List Json) (coerced : JNum)
  | other (coerced : JNum)

/-- JS `Number(v)` coercion (`Number(null) = 0`). -/
def jsToNumber : Json → JNum
  | .num v => v
  | .jnull => .fin 0
  | .arr _ c => c
  | .other c => c

/-- `BalloonPoint` from `lib/types.ts`; `timestamp` models the millisecond
instant whose ISO rendering the source stores. -/
structure BalloonPoint where
  balloonId : String
  timestamp : Int
  lat : JNum
  lon : JNum
  alt : Option JNum
  snapshotIndex : Nat
deriving DecidableEq, Repr

/-- `BalloonTrack` from `lib/types.ts`. -/
structure BalloonTrack where
  id : String
  points : List BalloonPoint
deriving DecidableEq, Repr

/-- A JS `Record<string, α>`: an insertion-ordered association list with
unique keys maintained by `recSet`. -/
abbrev RecordMap (α : Type) := List (String × α)

abbrev TrackMap := RecordMap BalloonTrack

/-- JS record read `m[k]`. -/
def lookupKey (k : String) : RecordMap α → Option α
  | [] => none
  | (k', v) :: rest => if k' = k then some v else lookupKey k rest

/-- JS record write `m[k] = v`: updates in place if the key exists, else
appends (JS string-keyed records preserve insertion order). -/
def recSet (m : RecordMap α) (k : String) (v : α) : RecordMap α :=
  match m with
  | [] => [(k, v)]
  | (k', v') :: rest => if k' = k then (k', v) :: rest else (k', v') :: recSet rest k v

/-- In-place update of an existing key (no-op when absent). -/
def recUpdate (m : RecordMap α) (k : String) (f : α → α) : RecordMap α :=
  match m with
  | [] => []
  | (k', v) :: rest => if k' = k then (k', f v) :: rest else (k', v) :: recUpdate rest k f

/-- The positional balloon identity used by both pipelines. -/
def mkBalloonId (idx : Nat) : String := "balloon-" ++ toString idx

/-! ### route.ts: `buildBalloonHistory` -/

/-- One snapshot entry of the route handler's `buildBalloonHistory`:
requires an array of length ≥ 2, coerces lat/lon with `Number`, rejects
non-finite results, and keeps the altitude only when its coercion is finite
(`altRaw == null`, i.e. JS `null`/`undefined`, yields a null altitude). -/
def routeValidate : Json → Option (JNum × JNum × Option JNum)
  | .arr (latRaw :: lonRaw :: rest) _ =>
      match jsToNumber latRaw, jsToNumber lonRaw with
      | .fin la, .fin lo =>
          let altNum : Option JNum :=
            match rest.head? with
            | none => none
            | some .jnull => none
            | some v => some (jsToNumber v)
          let alt : Option JNum :=
            match altNum with
            | some (.fin a) => some (.fin a)
            | _ => none
          some (.fin la, .fin lo, alt)
      | _, _ => none
  | _ => none

/-- `balloons[balloonId]` creation plus `points.push(point)`. -/
def pushPoint (bal : TrackMap) (id : String) (p : BalloonPoint) : TrackMap :=
  let bal' := match lookupKey id bal with
    | some _ => bal
    | none => bal ++ [(id, ⟨id, []⟩)]
  recUpdate bal' id (fun t => { t with points := t.points ++ [p] })

/-- Body of the `snapshot.forEach((entry, idx) => ...)` loop. -/
def routeProcessEntry (now : Int) (hour : Nat) (bal : TrackMap) (ie : Nat × Json) :
    TrackMap :=
  match routeValidate ie.2 with
  | none => bal
  | some (lat, lon, alt) =>
      let id := mkBalloonId ie.1
      pushPoint bal id
        { balloonId := id
          timestamp := now - (hour : Int) * 3600000
          lat := lat
          lon := lon
          alt := alt
          snapshotIndex := hour }

/-- One hour of the route handler's fold. -/
def routeProcessSnapshot (now : Int) (hour : Nat) (bal : TrackMap)
    (snapshot : List Json) : TrackMap :=
  snapshot.enum.foldl (routeProcessEntry now hour) bal

/-- Comparator of the final `points.sort((a, b) => a.snapshotIndex - b.snapshotIndex)`. -/
def bySnapshotIndex (a b : BalloonPoint) : Bool :=
  decide (a.snapshotIndex ≤ b.snapshotIndex)

/-- The per-hour fold of `buildBalloonHistory`: each hour's snapshot is
processed in order (skipping falsy entries, mirroring
`if (!snapshot) continue`). -/
def routeFoldSnapshots (now : Int) (rawSnapshots : List (Option (List Json))) :
    TrackMap :=
  rawSnapshots.enum.foldl
    (fun b hs =>
      match hs.2 with
      | none => b
      | some s => routeProcessSnapshot now hs.1 b s) []

/-- `buildBalloonHistory` of `app/api/balloon-history/route.ts`: folds each
hour's snapshot, then sorts every track's points ascending by
`snapshotIndex`.  `now` models `Date.now()`. -/
def buildBalloonHistory (now : Int) (rawSnapshots : List (Option (List Json))) :
    TrackMap :=
  (routeFoldSnapshots now rawSnapshots).map
    fun kt => (kt.1, { kt.2 with points := kt.2.points.mergeSort bySnapshotIndex })

/-- The snapshot half of the route handler's `GET`: the settled per-hour fetch
results are filtered (`rawSnapshots.filter((s) => !!s)`) before being handed to
`buildBalloonHistory`, which then re-indexes the surviving snapshots from 0. -/
def routeGETBalloons (now : Int) (fetched : List (Option (List Json))) : TrackMap :=
  buildBalloonHistory now ((fetched.filterMap id).map some)

/-! ### lib/windborne.ts: `extractPointsFromSnapshot` -/

/-- One entry of `extractPointsFromSnapshot`: the entry must be an array whose
first two elements are of JS type `number` (no coercion here), and the
lat/lon range test uses JS comparisons (false on `NaN`). -/
def extractEntry (ts : Int) (hourIndex idx : Nat) : Json → Option BalloonPoint
  | .arr xs _ =>
      match xs.head?, (xs.drop 1).head? with
      | some (.num lat), some (.num lon) =>
          if lat.jlt (.fin (-90)) || lat.jgt (.fin 90) ||
             lon.jlt (.fin (-180)) || lon.jgt (.fin 180) then
            none
          else
            some
              { balloonId := mkBalloonId idx
                timestamp := ts
                lat := lat
                lon := lon
                alt :=
                  match (xs.drop 2).head? with
                  | some (.num a) => some a
                  | _ => none
                snapshotIndex := hourIndex }
      | _, _ => none
  | _ => none

/-- The `raw.forEach((entry, idx) => ...)` accumulation, with the running
index made explicit. -/
def extractAux (ts : Int) (hourIndex : Nat) : List Json → Nat → List BalloonPoint
  | [], _ => []
  | e :: rest, idx =>
      (extractEntry ts hourIndex idx e).toList ++ extractAux ts hourIndex rest (idx + 1)

/-- `extractPointsFromSnapshot` of `lib/windborne.ts` (`now` models the
`Date.now()` read; the stored timestamp is `now - hourIndex * 3600_000`). -/
def extractPointsFromSnapshot (now : Int) (raw : Json) (hourIndex : Nat) :
    List BalloonPoint :=
  match raw with
  | .arr xs _ => extractAux (now - (hourIndex : Int) * 3600000) hourIndex xs 0
  | _ => []

/-! ### route.ts: grid cells -/

/-- The grid resolution constant `GRID_DEGREES`. -/
def GRID_DEGREES : ℚ := 1

/-- JS `Math.round` on an exact rational: round half toward positive infinity. -/
def jsRound (q : ℚ) : ℤ := ⌊q + 1 / 2⌋

/-- JS `Math.round` lifted to `JNum` (`Math.round` preserves `NaN` and ±∞). -/
def jsRoundJ : JNum → JNum
  | .fin q => .fin (jsRound q)
  | .nan => .nan
  | .inf => .inf
  | .ninf => .ninf

/-- JS division `v / g` by a number `g` (positive-zero semantics for `g = 0`). -/
def jsDiv : JNum → ℚ → JNum
  | .fin q, g =>
      if g = 0 then (if q = 0 then .nan else if 0 < q then .inf else .ninf)
      else .fin (q / g)
  | .nan, _ => .nan
  | .inf, g => if g < 0 then .ninf else .inf
  | .ninf, g => if g < 0 then .inf else .ninf

/-- JS multiplication `v * g` by a rational `g`. -/
def jsMul : JNum → ℚ → JNum
  | .fin q, g => .fin (q * g)
  | .nan, _ => .nan
  | .inf, g => if 0 < g then .inf else if g < 0 then .ninf else .nan
  | .ninf, g => if 0 < g then .ninf else if g < 0 then .inf else .nan

/-- `roundToGrid` of `route.ts`: `Math.round(value / gridDeg) * gridDeg`. -/
def roundToGrid (value : JNum) (gridDeg : ℚ) : JNum :=
  jsMul (jsRoundJ (jsDiv value gridDeg)) gridDeg

/-- JS `Number.prototype.toFixed(1)` on the values this pipeline feeds it
(finite grid-rounded coordinates; `NaN`/±∞ render as their JS names). -/
def toFixed1 : JNum → String
  | .fin q =>
      let n : ℤ := jsRound (q * 10)
      (if n < 0 then "-" else "") ++ toString (n.natAbs / 10) ++ "." ++ toString (n.natAbs % 10)
  | .nan => "NaN"
  | .inf => "Infinity"
  | .ninf => "-Infinity"

/-- `Cell` from `route.ts`. -/
structure Cell where
  key : String
  lat : JNum
  lon : JNum
  balloonIds : List String
deriving DecidableEq, Repr

/-- The cell key a point's latest position rounds to:
`` `${latCenter.toFixed(1)},${lonCenter.toFixed(1)}` ``. -/
def cellKeyOf (p : BalloonPoint) : String :=
  toFixed1 (roundToGrid p.lat GRID_DEGREES) ++ "," ++ toFixed1 (roundToGrid p.lon GRID_DEGREES)

/-- `cellsMap[key]` insertion: push the id onto an existing cell with this key,
or append a fresh cell. -/
def addToCell (cells : List Cell) (key : String) (latC lonC : JNum) (id : String) :
    List Cell :=
  match cells with
  | [] => [⟨key, latC, lonC, [id]⟩]
  | c :: rest =>
      if c.key = key then { c with balloonIds := c.balloonIds ++ [id] } :: rest
      else c :: addToCell rest key latC lonC id

/-- One track's step of `clusterLatestPointsIntoCells` (tracks with no points
are skipped; `track.points[0]` is the latest point). -/
def clusterStep (cells : List Cell) (kt : String × BalloonTrack) : List Cell :=
  match kt.2.points with
  | [] => cells
  | latest :: _ =>
      addToCell cells (cellKeyOf latest) (roundToGrid latest.lat GRID_DEGREES)
        (roundToGrid latest.lon GRID_DEGREES) kt.2.id

/-- `clusterLatestPointsIntoCells` of `route.ts` (`Object.values(cellsMap)`
preserves insertion order, which the association list keeps directly). -/
def clusterLatestPointsIntoCells (balloons : TrackMap) : List Cell :=
  balloons.foldl clusterStep []

/-- `weatherCacheKey` of `route.ts`: `` `wx:${lat.toFixed(1)}:${lon.toFixed(1)}` ``. -/
def weatherCacheKey (cell : Cell) : String :=
  "wx:" ++ toFixed1 cell.lat ++ ":" ++ toFixed1 cell.lon

/-! ### route.ts: `fetchOpenMeteoBatch` -/

/-- `BalloonWeather` from `lib/types.ts` (a `none` field is JS `null`). -/
structure BalloonWeather where
  temperatureC : Option JNum
  windSpeedMs : Option JNum
  windDirectionDeg : Option JNum
deriving DecidableEq, Repr

/-- A `current_weather` object as far as the parser inspects it: each field is
`some v` exactly when the corresponding property exists and has JS type
`number` (so `v` may be `NaN`). -/
structure CurrentWeather where
  temperature : Option JNum
  windspeed : Option JNum
  winddirection : Option JNum
deriving DecidableEq, Repr

/-- One element of the per-cell result items; `none` models a falsy or absent
`item?.current_weather`. -/
abbrev OMItem := Option CurrentWeather

/-- The parsed JSON body of a successful Open-Meteo response, in the three
shapes `fetchOpenMeteoBatch` distinguishes: a top-level array, an object with
a `current_weather` array, or a single object. -/
inductive OMBody where
  | itemsArr (items : List OMItem)
  | cwArr (cws : List OMItem)
  | single (item : OMItem)
deriving DecidableEq, Repr

/-- The `items` normalization of `fetchOpenMeteoBatch`. -/
def OMBody.items : OMBody → List OMItem
  | itemsArr l => l
  | cwArr l => l
  | single i => [i]

/-- Outcome of one `fetch` of the Open-Meteo URL: a network-level exception or
an HTTP response with status code and (when consumed) parsed body. -/
inductive OMResponse where
  | netErr
  | resp (status : Nat) (body : OMBody)

/-- The per-cell conversion of a `current_weather` object, including the
`windspeed / 3.6` km/h → m/s normalization. -/
def parseCurrentWeather (cw : CurrentWeather) : BalloonWeather :=
  { temperatureC := cw.temperature
    windSpeedMs := cw.windspeed.map (JNum.divConst · 3.6)
    windDirectionDeg := cw.winddirection }

/-- The `cells.forEach((cell, idx) => ...)` result assembly: `items[idx]` out
of bounds or a falsy `current_weather` leaves that cell without weather. -/
def collectBatchResult (cells : List Cell) (body : OMBody) : RecordMap BalloonWeather :=
  cells.enum.foldl
    (fun acc ic =>
      match body.items.get? ic.1 with
      | some (some cw) => recSet acc ic.2.key (parseCurrentWeather cw)
      | _ => acc) []

/-- `maxRetries` of `fetchOpenMeteoBatch`. -/
def maxRetries : Nat := 5

/-- Trace of one `fetchOpenMeteoBatch` call: how many `fetch` attempts were
issued, the sleep delays between them, and the per-cell-key result record. -/
structure OMTrace where
  attempts : Nat
  delays : List Nat
  result : RecordMap BalloonWeather
deriving DecidableEq, Repr

/-- Recursion of `fetchOpenMeteoBatch`, structurally on the remaining retry
budget `left = maxRetries - attempt` (the source guard `attempt < maxRetries`
holds exactly when `left > 0` for every reachable call). -/
def fetchBatchGo (oracle : Nat → OMResponse) (cells : List Cell) :
    Nat → Nat → OMTrace
  | attempt, left =>
      if cells.isEmpty then ⟨0, [], []⟩
      else
        match oracle attempt, left with
        | .netErr, l + 1 =>
            let t := fetchBatchGo oracle cells (attempt + 1) l
            ⟨t.attempts + 1, 500 * (attempt + 1) :: t.delays, t.result⟩
        | .netErr, 0 => ⟨1, [], []⟩
        | .resp status body, l + 1 =>
            if status = 429 || 500 ≤ status then
              let t := fetchBatchGo oracle cells (attempt + 1) l
              ⟨t.attempts + 1, 500 * (attempt + 1) :: t.delays, t.result⟩
            else if !(200 ≤ status && status < 300) then ⟨1, [], []⟩
            else ⟨1, [], collectBatchResult cells body⟩
        | .resp status body, 0 =>
            if status = 429 || 500 ≤ status then ⟨1, [], []⟩
            else if !(200 ≤ status && status < 300) then ⟨1, [], []⟩
            else ⟨1, [], collectBatchResult cells body⟩

/-- `fetchOpenMeteoBatch` of `route.ts`: up to `maxRetries` recursive retries
on HTTP 429/5xx or a thrown network error, with delay `500 * (attempt + 1)`
before each retry; returns an (empty on failure) per-cell-key record.  The
`oracle` gives the outcome of the `fetch` made at each attempt number. -/
def fetchOpenMeteoBatch (oracle : Nat → OMResponse) (cells : List Cell)
    (attempt : Nat) : OMTrace :=
  fetchBatchGo oracle cells attempt (maxRetries - attempt)

/-! ### route.ts: rate limiter and `fetchWeatherForAllBalloons` -/

/-- `MAX_REQUESTS_PER_WINDOW` of `route.ts`. -/
def MAX_REQUESTS_PER_WINDOW : Nat := 500

/-- `WINDOW_MS` of `route.ts`. -/
def WINDOW_MS : Int := 60000

/-- The fixed-window limiter counters of `fetchWeatherForAllBalloons`. -/
structure LimiterState where
  windowStart : Int
  requestsInWindow : Nat
deriving DecidableEq, Repr

/-- One pass of the limiter logic at the top of the batch loop, combined with
the `requestsInWindow += 1` accounting of the call it admits.  `now` is the
`Date.now()` read at the loop top; `now'` is the `Date.now()` read after the
sleep (only consulted when the capacity-exhausted branch sleeps).  Returns the
milliseconds slept and the state after the admitted call. -/
def limiterStep (st : LimiterState) (now now' : Int) : Int × LimiterState :=
  if MAX_REQUESTS_PER_WINDOW ≤ st.requestsInWindow ∧ now - st.windowStart < WINDOW_MS then
    (WINDOW_MS - (now - st.windowStart), { windowStart := now', requestsInWindow := 0 + 1 })
  else if WINDOW_MS ≤ now - st.windowStart then
    (0, { windowStart := now, requestsInWindow := 0 + 1 })
  else
    (0, { windowStart := st.windowStart, requestsInWindow := st.requestsInWindow + 1 })

/-- The Redis client as the pipeline sees it: not configured
(`getRedisClient()` returned `null` because `REDIS_URL` is unset), working
(its `mget` resolves; per key `none` = no/empty cached string, `some none` =
cached string that fails `JSON.parse`, `some (some wx)` = parsed reading), or
unreachable (its commands reject). -/
inductive CacheClient where
  | noClient
  | working (store : String → Option (Option BalloonWeather))
  | broken

/-- The Redis-lookup phase of `fetchWeatherForAllBalloons`: partitions cells
into cached readings and `missingCells`.  With no client every cell is
missing; an unreachable client's `mget` rejects, which propagates out of the
function (it has no try/catch). -/
def mgetPhase (redis : CacheClient) (cells : List Cell) :
    Except Unit (RecordMap BalloonWeather × List Cell) :=
  match redis with
  | .noClient => .ok ([], cells)
  | .broken => .error ()
  | .working store =>
      .ok (cells.foldl
        (fun acc cell =>
          match store (weatherCacheKey cell) with
          | some (some wx) => (recSet acc.1 cell.key wx, acc.2)
          | _ => (acc.1, acc.2 ++ [cell]))
        ([], []))

/-- `missingCells.slice(i, i + WEATHER_BATCH_SIZE)` chunking (`n > 0`). -/
def chunksGo (n : Nat) : Nat → List α → List (List α)
  | 0, _ => []
  | _, [] => []
  | fuel + 1, x :: xs => (x :: xs).take n :: chunksGo n fuel ((x :: xs).drop n)

/-- The list of batches the loop `for (let i = 0; ...; i += WEATHER_BATCH_SIZE)`
processes. -/
def chunksOf (n : Nat) (l : List α) : List (List α) :=
  chunksGo n l.length l

/-- `WEATHER_BATCH_SIZE` of `route.ts`. -/
def WEATHER_BATCH_SIZE : Nat := 50

/-- State threaded through the batch loop: limiter counters, the modelled
clock (advanced by every `sleep`), the accumulated `cellWeather` record, and
the Redis `pipeline.set` writes issued so far. -/
structure BatchState where
  limiter : LimiterState
  clock : Int
  cellW : RecordMap BalloonWeather
  writes : List (String × BalloonWeather)
deriving Repr

/-- Whether the guard `if (redis && ttlSeconds > 0)` enables cache writes. -/
def cacheWritesEnabled (redis : CacheClient) (ttlSeconds : ℚ) : Bool :=
  match redis with
  | .working _ => decide (0 < ttlSeconds)
  | _ => false

/-- The batch loop of `fetchWeatherForAllBalloons`: per batch, run the limiter
prologue, call `fetchOpenMeteoBatch` (the `oracle` is indexed by batch number
then attempt number), merge its result into `cellWeather`, and issue one
pipelined cache write per cell the batch resolved. -/
def runBatches (oracle : Nat → Nat → OMResponse) (redis : CacheClient)
    (ttlSeconds : ℚ) : List (List Cell) → Nat → BatchState → BatchState
  | [], _, st => st
  | batch :: rest, bIdx, st =>
      let now := st.clock
      let (waited, lim') :=
        limiterStep st.limiter now (now + (WINDOW_MS - (now - st.limiter.windowStart)))
      let t := fetchOpenMeteoBatch (oracle bIdx) batch 0
      let cellW' := t.result.foldl (fun acc kv => recSet acc kv.1 kv.2) st.cellW
      let writes' :=
        if cacheWritesEnabled redis ttlSeconds then
          st.writes ++ batch.filterMap
            (fun cell => (lookupKey cell.key t.result).map
              (fun wx => (weatherCacheKey cell, wx)))
        else st.writes
      runBatches oracle redis ttlSeconds rest (bIdx + 1)
        { limiter := lim'
          clock := st.clock + waited + ((t.delays.foldl (· + ·) 0 : Nat) : Int)
          cellW := cellW'
          writes := writes' }

/-- `ids.forEach` body of the final fan-out: assign the cell's reading to each
balloon id in the cell. -/
def assignCell (acc : RecordMap BalloonWeather) (wx : BalloonWeather)
    (ids : List String) : RecordMap BalloonWeather :=
  ids.foldl (fun a id => recSet a id wx) acc

/-- One cell of the final fan-out: `if (!wx) continue` then the inner loop. -/
def fanOutStep (cellW : RecordMap BalloonWeather)
    (acc : RecordMap BalloonWeather) (c : Cell) : RecordMap BalloonWeather :=
  match lookupKey c.key cellW with
  | none => acc
  | some wx => assignCell acc wx c.balloonIds

/-- The fan-out loop of `fetchWeatherForAllBalloons`: for every cell whose key
resolved in `cellWeather`, assign that reading to all of the cell's balloons. -/
def fanOut (cells : List Cell) (cellW : RecordMap BalloonWeather) :
    RecordMap BalloonWeather :=
  cells.foldl (fanOutStep cellW) []

/-- Observable outcome of `fetchWeatherForAllBalloons`: the per-balloon
`latestWeather` record it returns, the final per-cell `cellWeather` record,
and the cache writes it issued. -/
structure PipeOut where
  latestWeather : RecordMap BalloonWeather
  cellWeather : RecordMap BalloonWeather
  writes : List (String × BalloonWeather)

/-- `fetchWeatherForAllBalloons` of `route.ts`.  `ttlSeconds` models
`Number(process.env.REDIS_WEATHER_TTL_SECONDS ?? "900")`; `t0` is the clock at
entry to the batching phase.  An unreachable Redis client makes the function
reject (`Except.error`), which the route handler surfaces as its 500 response. -/
def fetchWeatherForAllBalloons (redis : CacheClient) (ttlSeconds : ℚ)
    (oracle : Nat → Nat → OMResponse) (t0 : Int) (balloons : TrackMap) :
    Except Unit PipeOut :=
  let cells := clusterLatestPointsIntoCells balloons
  match mgetPhase redis cells with
  | .error e => .error e
  | .ok (cellW0, missingCells) =>
      let st := runBatches oracle redis ttlSeconds
        (chunksOf WEATHER_BATCH_SIZE missingCells) 0
        { limiter := { windowStart := t0, requestsInWindow := 0 }
          clock := t0
          cellW := cellW0
          writes := [] }
      .ok
        { latestWeather := fanOut cells st.cellW
          cellWeather := st.cellW
          writes := st.writes }

/-! ### lib/weather.ts: `fetchWeatherForBalloons` -/

/-- `MAX_BALLOONS_WITH_WEATHER` of `lib/weather.ts`. -/
def MAX_BALLOONS_WITH_WEATHER : Nat := 50

/-- The all-null reading assigned when a coordinate fetch fails or a balloon
is beyond the query cap. -/
def nullReading : BalloonWeather := ⟨none, none, none⟩

/-- The `toQuery.map(async ...)` phase of `fetchWeatherForBalloons`: each
queried balloon gets its fetched reading, or the all-null reading when the
coordinate fetch returned `null` (`wx ?? {...}`). -/
def queryPhase (coordWx : JNum × JNum → Option BalloonWeather)
    (toQuery : List (String × (JNum × JNum))) (acc : RecordMap BalloonWeather) :
    RecordMap BalloonWeather :=
  toQuery.foldl (fun a e => recSet a e.1 ((coordWx e.2).getD nullReading)) acc

/-- The `for (const [balloonId] of toSkip)` phase of
`fetchWeatherForBalloons`: balloons beyond the cap get the all-null reading
unless already present. -/
def skipPhase (toSkip : List (String × (JNum × JNum)))
    (acc : RecordMap BalloonWeather) : RecordMap BalloonWeather :=
  toSkip.foldl
    (fun a e => if (lookupKey e.1 a).isSome then a else recSet a e.1 nullReading)
    acc

/-- `fetchWeatherForBalloons` of `lib/weather.ts`.  `coordWx` is the outcome
of `fetchWeatherForCoord` per position (`none` = it returned `null`).  Returns
the per-balloon results record together with the list of positions actually
queried against the provider. -/
def fetchWeatherForBalloons (coordWx : JNum × JNum → Option BalloonWeather)
    (latestPositions : List (String × (JNum × JNum))) :
    RecordMap BalloonWeather × List (JNum × JNum) :=
  let toQuery := latestPositions.take MAX_BALLOONS_WITH_WEATHER
  let toSkip := latestPositions.drop MAX_BALLOONS_WITH_WEATHER
  (skipPhase toSkip (queryPhase coordWx toQuery []), toQuery.map Prod.snd)

/-- The 51-balloon input of the C10 witness. -/
def c10Latest : List (String × (JNum × JNum)) :=
  (List.range 51).map (fun i => ("b" ++ toString i, (.fin 0, .fin 0)))

/-! ### Concrete inputs used by counterexamples and witnesses -/

/-- An otherwise-arbitrary cell, used to drive the batch fetcher. -/
def exCell : Cell := ⟨"0.0,0.0", .fin 0, .fin 0, ["balloon-0"]⟩

/-- A weather endpoint that answers HTTP 429 to every attempt. -/
def ex429Oracle : Nat → OMResponse := fun _ => .resp 429 (.single none)

/-- A response outcome on which `fetchOpenMeteoBatch` retries: HTTP 429, an
HTTP 5xx status, or a network-level exception. -/
def Retryable : OMResponse → Prop
  | .netErr => True
  | .resp status _ => status = 429 ∨ 500 ≤ status

/-- The valid record `[10.2, 20.5, 5.0]` of the spec's hour-0 example. -/
def goodEntry : Json := .arr [.num (.fin 10.2), .num (.fin 20.5), .num (.fin 5)] .nan

/-- The out-of-range record `[91, 20, 5]` of the spec's hour-0 example. -/
def badLatEntry : Json := .arr [.num (.fin 91), .num (.fin 20), .num (.fin 5)] .nan

/-- The malformed record `"bad"` (a non-array string; `Number("bad")` is `NaN`). -/
def badStrEntry : Json := .other .nan

/-- The spec's example snapshot for hour 0. -/
def exSnapshotHour0 : List Json := [goodEntry, badLatEntry, badStrEntry]

/-- Settled snapshot fetches where hour 0 failed and hour 1 returned one
record `[10, 20, 5]`. -/
def c2Fetched : List (Option (List Json)) :=
  [none, some [.arr [.num (.fin 10), .num (.fin 20), .num (.fin 5)] .nan]]

/-- Structural invariant of the route handler's track map: every stored track
carries its own key as `id`, has at least one point, and all of its points
carry the track's `id`. -/
def TrackInv (bal : TrackMap) : Prop :=
  ∀ kt ∈ bal,
    kt.2.id = kt.1 ∧ kt.2.points ≠ [] ∧ ∀ p ∈ kt.2.points, p.balloonId = kt.2.id

/-- A one-hour, one-record snapshot list used by witnesses. -/
def c9Raw : List (Option (List Json)) :=
  [some [.arr [.num (.fin 10), .num (.fin 20)] .nan]]

/-- The track `c9Raw` builds. -/
def c9Track : BalloonTrack :=
  ⟨"balloon-0", [⟨"balloon-0", 0, .fin 10, .fin 20, none, 0⟩]⟩

/-- A latest point whose coordinates are `NaN` (kept by the route build's
validation, which never re-checks at clustering time). -/
def c5Pt : BalloonPoint := ⟨"b", 0, .nan, .nan, none, 0⟩

/-- A one-track map used to drive the enrichment pipeline in witnesses. -/
def c5Bal : TrackMap := [("b", ⟨"b", [c5Pt]⟩)]

/-- A weather endpoint that answers a non-retryable HTTP 404 to every batch. -/
def oracle404 : Nat → Nat → OMResponse := fun _ _ => .resp 404 (.single none)

/-! ### Theorems -/

theorem lookupKey_recSet (m : RecordMap α) (k : String) (v : α) (k' : String) :
    lookupKey k' (recSet m k v) = if k' = k then some v else lookupKey k' m := by
  induction m with
  | nil =>
      by_cases h : k' = k
      · subst h; simp [recSet, lookupKey]
      · simp [recSet, lookupKey, h, Ne.symm h]
  | cons hd tl ih =>
      obtain ⟨k₀, v₀⟩ := hd
      by_cases h₀ : k₀ = k
      · subst h₀
        by_cases h₁ : k' = k₀
        · subst h₁; simp [recSet, lookupKey]
        · simp [recSet, lookupKey, h₁, Ne.symm h₁]
      · by_cases h₁ : k₀ = k'
        · subst h₁
          simp [recSet, lookupKey, h₀, Ne.symm h₀]
        · simp [recSet, lookupKey, h₀, h₁, ih]

theorem lookupKey_eq_none (m : RecordMap α) (k : String)
    (h : lookupKey k m = none) (v : α) : (k, v) ∉ m := by
  induction m with
  | nil => simp
  | cons hd tl ih =>
      obtain ⟨k₀, v₀⟩ := hd
      by_cases h₀ : k₀ = k
      · subst h₀; simp [lookupKey] at h
      · simp only [lookupKey, if_neg h₀] at h
        simp only [List.mem_cons]
        rintro (he | hm)
        · injection he with h1 h2
          exact h₀ h1.symm
        · exact ih h hm

/-- C7 helper: `Math.round` of an integer-valued rational is that integer. -/
theorem jsRound_intCast (z : ℤ) : jsRound (z : ℚ) = z := by
  unfold jsRound
  rw [Int.floor_int_add]
  norm_num

/-- C7: Grid rounding is idempotent.  For every finite value `x` and nonzero
grid size `g`, `roundToGrid (roundToGrid x g) g = roundToGrid x g`. -/
theorem roundToGrid_idempotent (x g : ℚ) (hg : g ≠ 0) :
    roundToGrid (roundToGrid (.fin x) g) g = roundToGrid (.fin x) g := by
  simp only [roundToGrid, jsDiv, if_neg hg, jsRoundJ, jsMul]
  rw [mul_div_cancel_right₀ _ hg, jsRound_intCast]

/-- C7 witness: idempotence at `x = 37/10`, `g = 1`. -/
theorem roundToGrid_idempotent_witness :
    (1 : ℚ) ≠ 0 ∧
      roundToGrid (roundToGrid (.fin (37 / 10)) 1) 1 = roundToGrid (.fin (37 / 10)) 1 :=
  ⟨by norm_num, roundToGrid_idempotent (37 / 10) 1 (by norm_num)⟩

/-- C8: the provider's `windspeed` field (km/h) is divided by 3.6 before being
stored as `windSpeedMs`; in particular a provider wind speed of 36 km/h is
stored as exactly 10 m/s. -/
theorem windspeed_km_h_to_m_s (c : Cell) (t d : Option JNum) (w : ℚ) :
    (fetchOpenMeteoBatch
        (fun _ => .resp 200 (.itemsArr [some ⟨t, some (.fin w), d⟩])) [c] 0).result =
      [(c.key, ⟨t, some (.fin (w / 3.6)), d⟩)] ∧
    (fetchOpenMeteoBatch
        (fun _ => .resp 200 (.itemsArr [some ⟨t, some (.fin 36), d⟩])) [c] 0).result =
      [(c.key, ⟨t, some (.fin 10), d⟩)] := by
  constructor
  · simp [fetchOpenMeteoBatch, fetchBatchGo, maxRetries, collectBatchResult,
      OMBody.items, parseCurrentWeather, JNum.divConst, recSet, List.enum]
  · simp [fetchOpenMeteoBatch, fetchBatchGo, maxRetries, collectBatchResult,
      OMBody.items, parseCurrentWeather, JNum.divConst, recSet, List.enum]
    norm_num

/-- C6: the fixed-window limiter.  (1) With the window's capacity exactly
exhausted and the window not yet elapsed, the next request sleeps for
`WINDOW_MS - elapsed`, then the window restarts at the post-sleep clock with
the counter reset (and then incremented by the admitted call).  (2) A request
arriving once `WINDOW_MS` has elapsed proceeds with no sleep and resets the
window to `now`.  (3) The counter never exceeds `MAX_REQUESTS_PER_WINDOW`. -/
theorem rate_limiter_fixed_window (st : LimiterState) (now now' : Int) :
    (st.requestsInWindow = MAX_REQUESTS_PER_WINDOW → now - st.windowStart < WINDOW_MS →
      limiterStep st now now' =
        (WINDOW_MS - (now - st.windowStart),
          { windowStart := now', requestsInWindow := 1 }))
  ∧ (WINDOW_MS ≤ now - st.windowStart →
      limiterStep st now now' = (0, { windowStart := now, requestsInWindow := 1 }))
  ∧ (st.requestsInWindow ≤ MAX_REQUESTS_PER_WINDOW →
      (limiterStep st now now').2.requestsInWindow ≤ MAX_REQUESTS_PER_WINDOW) := by
  unfold limiterStep
  refine ⟨?_, ?_, ?_⟩
  · intro h1 h2
    rw [if_pos ⟨le_of_eq h1.symm, h2⟩]
  · intro h1
    rw [if_neg (fun hc => absurd h1 (not_le.mpr hc.2)), if_pos h1]
  · intro h1
    split_ifs with h2 h3
    · show 0 + 1 ≤ MAX_REQUESTS_PER_WINDOW
      decide
    · show 0 + 1 ≤ MAX_REQUESTS_PER_WINDOW
      decide
    · simp only [not_and, not_lt, not_le] at h2 h3
      simp only [MAX_REQUESTS_PER_WINDOW, WINDOW_MS] at h1 h2 h3
      show st.requestsInWindow + 1 ≤ MAX_REQUESTS_PER_WINDOW
      simp only [MAX_REQUESTS_PER_WINDOW]
      omega

/-- C6 witness: both limiter branches at concrete states.  With 500 requests
consumed and 10 s elapsed the next request sleeps 50 s and restarts the window
at the post-sleep clock; with 60 s elapsed a request proceeds immediately. -/
theorem rate_limiter_fixed_window_witness :
    limiterStep ⟨0, 500⟩ 10000 60000 =
        (50000, { windowStart := 60000, requestsInWindow := 1 })
  ∧ limiterStep ⟨0, 450⟩ 60000 60000 =
        (0, { windowStart := 60000, requestsInWindow := 1 }) :=
  ⟨by
      have h := (rate_limiter_fixed_window ⟨0, 500⟩ 10000 60000).1 rfl (by decide)
      simpa using h,
   by
      have h := (rate_limiter_fixed_window ⟨0, 450⟩ 60000 60000).2.1 (by decide)
      simpa using h⟩

/-- C3 helper: when every attempt's outcome is retryable, `fetchBatchGo` with
retry budget `left` makes `left + 1` attempts, sleeps the linearly increasing
delays, and produces the empty result record. -/
theorem range_map_delay (a l : Nat) :
    (List.range (l + 1)).map (fun i => 500 * (a + 1 + i)) =
      500 * (a + 1) :: (List.range l).map (fun i => 500 * (a + 1 + 1 + i)) := by
  rw [List.range_succ_eq_map, List.map_cons, List.map_map]
  refine congrArg₂ _ (by norm_num) (List.map_congr_left ?_)
  intro i _
  simp only [Function.comp]
  omega

theorem fetchBatchGo_all_retryable (oracle : Nat → OMResponse) (cells : List Cell)
    (hc : cells ≠ []) (h : ∀ n, Retryable (oracle n)) :
    ∀ left attempt, fetchBatchGo oracle cells attempt left =
      ⟨left + 1, (List.range left).map (fun i => 500 * (attempt + 1 + i)), []⟩ := by
  have hne : cells.isEmpty = false := by
    cases cells with
    | nil => exact absurd rfl hc
    | cons a l => rfl
  intro left
  induction left with
  | zero =>
      intro attempt
      have hr := h attempt
      cases ho : oracle attempt with
      | netErr =>
          unfold fetchBatchGo
          rw [ho]
          simp [hne]
      | resp status body =>
          rw [ho] at hr
          unfold Retryable at hr
          have hst : (decide (status = 429) || decide (500 ≤ status)) = true := by
            rcases hr with h1 | h1 <;> simp [h1]
          unfold fetchBatchGo
          rw [ho]
          simp [hne, hst]
  | succ l ih =>
      intro attempt
      have hr := h attempt
      cases ho : oracle attempt with
      | netErr =>
          unfold fetchBatchGo
          rw [ho]
          simp only [hne, Bool.false_eq_true, if_false]
          rw [ih (attempt + 1), range_map_delay]
      | resp status body =>
          rw [ho] at hr
          unfold Retryable at hr
          have hst : (decide (status = 429) || decide (500 ≤ status)) = true := by
            rcases hr with h1 | h1 <;> simp [h1]
          unfold fetchBatchGo
          rw [ho]
          simp only [hne, Bool.false_eq_true, if_false, hst, if_true]
          rw [ih (attempt + 1), range_map_delay]

/-- C3 counterexample: against a weather endpoint that always answers
HTTP 429, a nonempty batch issues 6 remote attempts, not at most 5 (the
initial call plus `maxRetries = 5` retries). -/
theorem batch_retry_attempts_exceed_five :
    ¬ (fetchOpenMeteoBatch ex429Oracle [exCell] 0).attempts ≤ 5 := by
  decide

/-- C3 amended: a batch call whose every attempt hits HTTP 429, an HTTP 5xx
status, or a network-level exception issues exactly 6 remote attempts (the
initial call plus 5 retries) with strictly increasing delays
500, 1000, 1500, 2000, 2500 ms between them, and returns an empty result
record rather than throwing. -/
theorem batch_retry_exhaustion (oracle : Nat → OMResponse) (cells : List Cell)
    (hc : cells ≠ []) (h : ∀ n, Retryable (oracle n)) :
    (fetchOpenMeteoBatch oracle cells 0).attempts = 6
  ∧ (fetchOpenMeteoBatch oracle cells 0).delays = [500, 1000, 1500, 2000, 2500]
  ∧ List.Chain' (· < ·) (fetchOpenMeteoBatch oracle cells 0).delays
  ∧ (fetchOpenMeteoBatch oracle cells 0).result = [] := by
  have := fetchBatchGo_all_retryable oracle cells hc h (maxRetries - 0) 0
  unfold fetchOpenMeteoBatch
  rw [this]
  refine ⟨rfl, by decide, ?_, rfl⟩
  rw [show (List.range (maxRetries - 0)).map (fun i => 500 * (0 + 1 + i)) =
      [500, 1000, 1500, 2000, 2500] by decide]
  norm_num [List.chain'_cons]

/-- C1 counterexample: in the route handler's `buildBalloonHistory` (which
checks only that the coerced coordinates are finite numbers, not their
range), the spec's example snapshot
`[[10.2, 20.5, 5.0], [91, 20, 5], "bad"]` produces a `balloon-1` track from
the out-of-range record `[91, 20, 5]` instead of dropping it, so the
resulting track set is not exactly `{balloon-0}`. -/
theorem out_of_range_record_kept_by_route_build :
    lookupKey "balloon-1" (buildBalloonHistory 0 [some exSnapshotHour0]) =
      some ⟨"balloon-1", [⟨"balloon-1", 0, .fin 91, .fin 20, some (.fin 5), 0⟩]⟩ := by
  simp [buildBalloonHistory, exSnapshotHour0, goodEntry, badLatEntry, badStrEntry,
    routeProcessSnapshot, routeProcessEntry, routeValidate, jsToNumber, pushPoint,
    lookupKey, recUpdate, recSet, mkBalloonId, List.enum, List.enumFrom]
  decide

/-- C1 helper: `extractAux` collects exactly the per-index images of
`extractEntry`. -/
theorem extractAux_eq_enumFrom (ts : Int) (hourIndex : Nat) :
    ∀ (xs : List Json) (base : Nat),
      extractAux ts hourIndex xs base =
        (xs.enumFrom base).filterMap (fun ie => extractEntry ts hourIndex ie.1 ie.2) := by
  intro xs
  induction xs with
  | nil => intro base; rfl
  | cons e rest ih =>
      intro base
      cases h : extractEntry ts hourIndex base e <;>
        simp [extractAux, List.enumFrom, List.filterMap_cons, h, ih (base + 1)]

/-- C1 amended: in `extractPointsFromSnapshot` (the `lib/windborne.ts` track
building), the points of a snapshot are exactly the valid records' images in
order; a record whose numeric latitude is outside [-90, 90] or whose numeric
longitude is outside [-180, 180] contributes nothing, while every in-range
record at index `idx` still becomes its `balloon-idx` point.  (The route
handler's `buildBalloonHistory` instead keeps finite out-of-range records —
see the counterexample.) -/
theorem out_of_range_records_dropped_by_extract (now : Int) (hourIndex : Nat)
    (xs : List Json) (c : JNum) :
    (extractPointsFromSnapshot now (.arr xs c) hourIndex =
       xs.enum.filterMap (fun ie =>
         extractEntry (now - (hourIndex : Int) * 3600000) hourIndex ie.1 ie.2))
  ∧ (∀ (idx : Nat) (la lo : ℚ) (rest : List Json) (cr : JNum),
       (la < -90 ∨ 90 < la ∨ lo < -180 ∨ 180 < lo) →
       extractEntry (now - (hourIndex : Int) * 3600000) hourIndex idx
         (.arr (.num (.fin la) :: .num (.fin lo) :: rest) cr) = none)
  ∧ (∀ (idx : Nat) (la lo : ℚ) (rest : List Json) (cr : JNum),
       xs[idx]? = some (.arr (.num (.fin la) :: .num (.fin lo) :: rest) cr) →
       -90 ≤ la → la ≤ 90 → -180 ≤ lo → lo ≤ 180 →
       ({ balloonId := mkBalloonId idx
          timestamp := now - (hourIndex : Int) * 3600000
          lat := .fin la
          lon := .fin lo
          alt := match rest.head? with | some (.num a) => some a | _ => none
          snapshotIndex := hourIndex } : BalloonPoint) ∈
         extractPointsFromSnapshot now (.arr xs c) hourIndex) := by
  have hmain : extractPointsFromSnapshot now (.arr xs c) hourIndex =
      xs.enum.filterMap (fun ie =>
        extractEntry (now - (hourIndex : Int) * 3600000) hourIndex ie.1 ie.2) := by
    show extractAux (now - (hourIndex : Int) * 3600000) hourIndex xs 0 = _
    rw [extractAux_eq_enumFrom]
    rfl
  refine ⟨hmain, ?_, ?_⟩
  · intro idx la lo rest cr hrange
    rcases hrange with h | h | h | h <;>
      simp [extractEntry, JNum.jlt, JNum.jgt, h]
  · intro idx la lo rest cr hidx h1 h2 h3 h4
    rw [hmain]
    rw [List.mem_filterMap]
    refine ⟨(idx, .arr (.num (.fin la) :: .num (.fin lo) :: rest) cr), ?_, ?_⟩
    · exact List.mk_mem_enum_iff_getElem?.2 hidx
    · simp [extractEntry, JNum.jlt, JNum.jgt, not_lt.2 h1, not_lt.2 h2,
        not_lt.2 h3, not_lt.2 h4]

/-- C1 witness: the spec's hour-0 example.  The record `[91, 20, 5]` sits at
index 1 and is dropped by `extractEntry`, while the valid record
`[10.2, 20.5, 5.0]` still becomes the `balloon-0` point of the snapshot. -/
theorem out_of_range_records_dropped_by_extract_witness :
    ((90 : ℚ) < 91)
  ∧ extractEntry (0 - (0 : Int) * 3600000) 0 1
      (.arr [.num (.fin 91), .num (.fin 20), .num (.fin 5)] .nan) = none
  ∧ ({ balloonId := mkBalloonId 0
       timestamp := 0 - (0 : Int) * 3600000
       lat := .fin 10.2
       lon := .fin 20.5
       alt := some (.fin 5)
       snapshotIndex := 0 } : BalloonPoint) ∈
      extractPointsFromSnapshot 0 (.arr exSnapshotHour0 .nan) 0 :=
  ⟨by norm_num,
   (out_of_range_records_dropped_by_extract 0 0 exSnapshotHour0 .nan).2.1
      1 91 20 [.num (.fin 5)] .nan (Or.inr (Or.inl (by norm_num))),
   (out_of_range_records_dropped_by_extract 0 0 exSnapshotHour0 .nan).2.2
      0 10.2 20.5 [.num (.fin 5)] .nan rfl (by norm_num) (by norm_num)
      (by norm_num) (by norm_num)⟩

/-- C9 helper: membership in `recUpdate` comes from the old map or from the
updated key. -/
theorem mem_recUpdate (m : RecordMap α) (k : String) (f : α → α)
    (kt : String × α) :
    kt ∈ recUpdate m k f → kt ∈ m ∨ ∃ v, (k, v) ∈ m ∧ kt = (k, f v) := by
  induction m with
  | nil => intro h; simp [recUpdate] at h
  | cons hd tl ih =>
      obtain ⟨k₀, v₀⟩ := hd
      intro h
      by_cases h₀ : k₀ = k
      · subst h₀
        simp [recUpdate] at h
        rcases h with h | h
        · exact Or.inr ⟨v₀, List.mem_cons_self _ _, h⟩
        · exact Or.inl (List.mem_cons_of_mem _ h)
      · simp [recUpdate, h₀] at h
        rcases h with h | h
        · exact Or.inl (by simp [h])
        · rcases ih h with h' | ⟨v, hv, he⟩
          · exact Or.inl (List.mem_cons_of_mem _ h')
          · exact Or.inr ⟨v, List.mem_cons_of_mem _ hv, he⟩

/-- C9 helper: updating a key that is absent from the prefix rewrites only the
appended binding. -/
theorem recUpdate_append_fresh (m : RecordMap α) (k : String) (v : α)
    (f : α → α) :
    lookupKey k m = none → recUpdate (m ++ [(k, v)]) k f = m ++ [(k, f v)] := by
  induction m with
  | nil => intro _; simp [recUpdate]
  | cons hd tl ih =>
      obtain ⟨k₀, v₀⟩ := hd
      intro h
      by_cases h₀ : k₀ = k
      · subst h₀; simp [lookupKey] at h
      · simp only [lookupKey, if_neg h₀] at h
        simp [recUpdate, h₀, ih h]

/-- C9 helper: `pushPoint` preserves the track-map invariant when the pushed
point carries the target id. -/
theorem trackInv_pushPoint (bal : TrackMap) (id : String) (p : BalloonPoint)
    (h : TrackInv bal) (hp : p.balloonId = id) : TrackInv (pushPoint bal id p) := by
  cases hl : lookupKey id bal with
  | some t =>
      intro kt hkt
      simp only [pushPoint, hl] at hkt
      rcases mem_recUpdate _ _ _ _ hkt with hm | ⟨v, hv, he⟩
      · exact h kt hm
      · obtain ⟨hid, hne, hpts⟩ := h (id, v) hv
        subst he
        refine ⟨hid, by simp, ?_⟩
        intro q hq
        rcases List.mem_append.1 hq with hq | hq
        · exact hpts q hq
        · simp only [List.mem_singleton] at hq
          subst hq
          simpa [hp] using hid.symm
  | none =>
      intro kt hkt
      simp only [pushPoint, hl] at hkt
      rw [recUpdate_append_fresh _ _ _ _ hl] at hkt
      rcases List.mem_append.1 hkt with hm | hm
      · exact h kt hm
      · simp only [List.mem_singleton] at hm
        subst hm
        exact ⟨rfl, by simp, by simp [hp]⟩

/-- C9 helper: one snapshot entry preserves the invariant. -/
theorem trackInv_processEntry (now : Int) (hour : Nat) (bal : TrackMap)
    (ie : Nat × Json) (h : TrackInv bal) :
    TrackInv (routeProcessEntry now hour bal ie) := by
  unfold routeProcessEntry
  cases hv : routeValidate ie.2 with
  | none => exact h
  | some t =>
      obtain ⟨lat, lon, alt⟩ := t
      exact trackInv_pushPoint _ _ _ h rfl

/-- C9 helper: a whole snapshot's entry fold preserves the invariant. -/
theorem trackInv_foldl_entries (now : Int) (hour : Nat) :
    ∀ (l : List (Nat × Json)) (bal : TrackMap), TrackInv bal →
      TrackInv (l.foldl (routeProcessEntry now hour) bal) := by
  intro l
  induction l with
  | nil => intro bal h; exact h
  | cons e rest ih =>
      intro bal h
      exact ih _ (trackInv_processEntry now hour bal e h)

/-- C9 helper: the per-hour fold preserves the invariant. -/
theorem trackInv_routeFoldSnapshots (now : Int)
    (raw : List (Option (List Json))) : TrackInv (routeFoldSnapshots now raw) := by
  unfold routeFoldSnapshots
  generalize raw.enum = l
  have hstep : ∀ (l' : List (Nat × Option (List Json))) (bal : TrackMap),
      TrackInv bal →
      TrackInv (l'.foldl
        (fun b hs =>
          match hs.2 with
          | none => b
          | some s => routeProcessSnapshot now hs.1 b s) bal) := by
    intro l'
    induction l' with
    | nil => intro bal h; exact h
    | cons hs rest ih =>
        intro bal h
        obtain ⟨hour, snap⟩ := hs
        apply ih
        cases snap with
        | none => exact h
        | some s => exact trackInv_foldl_entries now hour s.enum bal h
  exact hstep l [] (by intro kt hkt; simp at hkt)

theorem bySnapshotIndex_trans (a b c : BalloonPoint)
    (h1 : bySnapshotIndex a b = true) (h2 : bySnapshotIndex b c = true) :
    bySnapshotIndex a c = true := by
  simp only [bySnapshotIndex, decide_eq_true_eq] at h1 h2 ⊢
  omega

theorem bySnapshotIndex_total (a b : BalloonPoint) :
    (bySnapshotIndex a b || bySnapshotIndex b a) = true := by
  simp only [bySnapshotIndex, Bool.or_eq_true, decide_eq_true_eq]
  omega

/-- C9: every track emitted by the route handler's `buildBalloonHistory` has
at least one point, all of its points carry the track's id, and its points
are sorted ascending by `snapshotIndex`. -/
theorem tracks_nonempty_consistent_sorted (now : Int)
    (raw : List (Option (List Json))) (k : String) (tr : BalloonTrack)
    (h : (k, tr) ∈ buildBalloonHistory now raw) :
    tr.points ≠ [] ∧ (∀ p ∈ tr.points, p.balloonId = tr.id) ∧
      List.Sorted (fun a b : BalloonPoint => a.snapshotIndex ≤ b.snapshotIndex)
        tr.points := by
  unfold buildBalloonHistory at h
  rw [List.mem_map] at h
  obtain ⟨kt0, hmem, heq⟩ := h
  obtain ⟨hid, hne, hpts⟩ := trackInv_routeFoldSnapshots now raw kt0 hmem
  have htr : tr = { kt0.2 with points := kt0.2.points.mergeSort bySnapshotIndex } := by
    have := congrArg Prod.snd heq
    simpa using this.symm
  subst htr
  refine ⟨?_, ?_, ?_⟩
  · intro hnil
    apply hne
    have hnil' : kt0.2.points.mergeSort bySnapshotIndex = [] := hnil
    have hlen := @List.length_mergeSort _ bySnapshotIndex kt0.2.points
    rw [hnil'] at hlen
    simp only [List.length_nil] at hlen
    exact List.length_eq_zero.1 hlen.symm
  · intro p hp
    have hp' := List.mem_mergeSort.1 hp
    simpa using hpts p hp'
  · have hs := List.sorted_mergeSort bySnapshotIndex_trans bySnapshotIndex_total
      kt0.2.points
    exact hs.imp fun hab => by
      simpa [bySnapshotIndex, decide_eq_true_eq] using hab

/-- C9 witness: the track built from a one-record snapshot is a member of the
output and is nonempty. -/
theorem tracks_nonempty_consistent_sorted_witness :
    ("balloon-0", c9Track) ∈ buildBalloonHistory 0 c9Raw ∧ c9Track.points ≠ [] := by
  have hm : ("balloon-0", c9Track) ∈ buildBalloonHistory 0 c9Raw := by
    simp [buildBalloonHistory, routeFoldSnapshots, c9Raw, c9Track,
      routeProcessSnapshot, routeProcessEntry, routeValidate, jsToNumber,
      pushPoint, lookupKey, recUpdate, recSet, mkBalloonId, List.enum, List.enumFrom]
    decide
  exact ⟨hm, (tracks_nonempty_consistent_sorted 0 c9Raw "balloon-0" c9Track hm).1⟩

/-- C2: the route handler filters failed snapshot fetches out of the settled
array before `buildBalloonHistory` indexes it by position, so when hour 0 is
unavailable the hour-1 record `[10, 20, 5]` is assigned `snapshotIndex = 0`
and timestamp `now - 0` hours — not `snapshotIndex = 1` and `now - 1` hour as
the unshifted indexing requires. -/
theorem failed_hour_shifts_later_snapshot_indices :
    lookupKey "balloon-0" (routeGETBalloons 0 c2Fetched) =
      some ⟨"balloon-0", [⟨"balloon-0", 0, .fin 10, .fin 20, some (.fin 5), 0⟩]⟩ := by
  simp [routeGETBalloons, buildBalloonHistory, c2Fetched, routeProcessSnapshot,
    routeProcessEntry, routeValidate, jsToNumber, pushPoint, lookupKey, recUpdate,
    recSet, mkBalloonId, List.enum, List.enumFrom]
  decide

/-- C3 witness: the amended behavior at the all-429 endpoint and a singleton
batch. -/
theorem batch_retry_exhaustion_witness :
    ([exCell] ≠ ([] : List Cell))
  ∧ (fetchOpenMeteoBatch ex429Oracle [exCell] 0).attempts = 6
  ∧ (fetchOpenMeteoBatch ex429Oracle [exCell] 0).delays = [500, 1000, 1500, 2000, 2500] :=
  ⟨by decide,
   (batch_retry_exhaustion ex429Oracle [exCell] (by decide)
      (fun n => Or.inl rfl)).1,
   (batch_retry_exhaustion ex429Oracle [exCell] (by decide)
      (fun n => Or.inl rfl)).2.1⟩

/-- C10 helper: a key is in a record's key list iff its lookup succeeds. -/
theorem lookupKey_isSome_iff (m : RecordMap α) (k : String) :
    (lookupKey k m).isSome = true ↔ k ∈ m.map Prod.fst := by
  induction m with
  | nil => simp [lookupKey]
  | cons hd tl ih =>
      obtain ⟨k₀, v₀⟩ := hd
      by_cases h₀ : k₀ = k
      · subst h₀; simp [lookupKey]
      · simp [lookupKey, h₀, ih, Ne.symm h₀]

/-- C10 helper: `recSet` on a fresh key appends it. -/
theorem recSet_keys_not_mem (m : RecordMap α) (k : String) (v : α)
    (h : k ∉ m.map Prod.fst) :
    (recSet m k v).map Prod.fst = m.map Prod.fst ++ [k] := by
  induction m with
  | nil => simp [recSet]
  | cons hd tl ih =>
      obtain ⟨k₀, v₀⟩ := hd
      simp only [List.map_cons, List.mem_cons, not_or] at h
      simp [recSet, Ne.symm h.1, ih h.2]

/-- C10 helper: `queryPhase` leaves keys outside the queried list untouched. -/
theorem lookupKey_queryPhase_not_mem (w : JNum × JNum → Option BalloonWeather) :
    ∀ (l : List (String × (JNum × JNum))) (acc : RecordMap BalloonWeather)
      (k : String), k ∉ l.map Prod.fst →
      lookupKey k (queryPhase w l acc) = lookupKey k acc := by
  intro l
  induction l with
  | nil => intro acc k _; rfl
  | cons e rest ih =>
      intro acc k hk
      simp only [List.map_cons, List.mem_cons, not_or] at hk
      unfold queryPhase at ih ⊢
      rw [List.foldl_cons, ih _ k hk.2, lookupKey_recSet, if_neg hk.1]

/-- C10 helper: each queried balloon's entry is its fetched-or-null reading. -/
theorem lookupKey_queryPhase_mem (w : JNum × JNum → Option BalloonWeather) :
    ∀ (l : List (String × (JNum × JNum))) (acc : RecordMap BalloonWeather)
      (k : String) (pos : JNum × JNum),
      (k, pos) ∈ l → (l.map Prod.fst).Nodup →
      lookupKey k (queryPhase w l acc) = some ((w pos).getD nullReading) := by
  intro l
  induction l with
  | nil => intro acc k pos h _; simp at h
  | cons e rest ih =>
      intro acc k pos hmem hnd
      simp only [List.map_cons, List.nodup_cons] at hnd
      rcases List.mem_cons.1 hmem with he | hm
      · have hk : k ∉ rest.map Prod.fst := by
          have : e.1 = k := by rw [← he]
          rw [← this]; exact hnd.1
        unfold queryPhase
        rw [List.foldl_cons]
        have := lookupKey_queryPhase_not_mem w rest
          (recSet acc e.1 ((w e.2).getD nullReading)) k hk
        unfold queryPhase at this
        rw [this, lookupKey_recSet, if_pos (by rw [← he])]
        rw [← he]
      · unfold queryPhase
        rw [List.foldl_cons]
        exact ih _ k pos hm hnd.2

/-- C10 helper: `queryPhase` over fresh, duplicate-free keys appends exactly
those keys. -/
theorem queryPhase_keys (w : JNum × JNum → Option BalloonWeather) :
    ∀ (l : List (String × (JNum × JNum))) (acc : RecordMap BalloonWeather),
      (∀ e ∈ l, e.1 ∉ acc.map Prod.fst) → (l.map Prod.fst).Nodup →
      (queryPhase w l acc).map Prod.fst = acc.map Prod.fst ++ l.map Prod.fst := by
  intro l
  induction l with
  | nil => intro acc _ _; simp [queryPhase]
  | cons e rest ih =>
      intro acc hfresh hnd
      simp only [List.map_cons, List.nodup_cons] at hnd
      unfold queryPhase
      rw [List.foldl_cons]
      have hkeys := recSet_keys_not_mem acc e.1 ((w e.2).getD nullReading)
        (hfresh e (List.mem_cons_self _ _))
      have IH := ih (recSet acc e.1 ((w e.2).getD nullReading)) ?_ hnd.2
      · unfold queryPhase at IH
        rw [IH, hkeys]
        simp
      · intro e' he'
        rw [hkeys]
        simp only [List.mem_append, List.mem_singleton, not_or]
        refine ⟨hfresh e' (List.mem_cons_of_mem _ he'), ?_⟩
        intro hcontra
        apply hnd.1
        rw [← hcontra]
        exact List.mem_map_of_mem Prod.fst he'

/-- C10 helper: `skipPhase` never changes an existing entry. -/
theorem lookupKey_skipPhase_isSome :
    ∀ (l : List (String × (JNum × JNum))) (acc : RecordMap BalloonWeather)
      (k : String), (lookupKey k acc).isSome →
      lookupKey k (skipPhase l acc) = lookupKey k acc := by
  intro l
  induction l with
  | nil => intro acc k _; rfl
  | cons e rest ih =>
      intro acc k hk
      unfold skipPhase
      rw [List.foldl_cons]
      by_cases hsome : (lookupKey e.1 acc).isSome
      · rw [if_pos hsome]
        exact ih acc k hk
      · rw [if_neg hsome]
        have hne : e.1 ≠ k := by
          intro hcontra
          rw [hcontra] at hsome
          exact hsome hk
        have hlook : lookupKey k (recSet acc e.1 nullReading) = lookupKey k acc := by
          rw [lookupKey_recSet, if_neg (Ne.symm hne)]
        have hrec := ih (recSet acc e.1 nullReading) k (by rw [hlook]; exact hk)
        unfold skipPhase at hrec
        rw [hrec, hlook]

/-- C10 helper: each skipped balloon absent from the accumulator ends with
the all-null reading. -/
theorem lookupKey_skipPhase_mem :
    ∀ (l : List (String × (JNum × JNum))) (acc : RecordMap BalloonWeather)
      (k : String) (pos : JNum × JNum),
      (k, pos) ∈ l → (l.map Prod.fst).Nodup → lookupKey k acc = none →
      lookupKey k (skipPhase l acc) = some nullReading := by
  intro l
  induction l with
  | nil => intro acc k pos h _ _; simp at h
  | cons e rest ih =>
      intro acc k pos hmem hnd hnone
      simp only [List.map_cons, List.nodup_cons] at hnd
      rcases List.mem_cons.1 hmem with he | hm
      · have hek : e.1 = k := by rw [← he]
        unfold skipPhase
        rw [List.foldl_cons]
        rw [if_neg (by rw [hek, hnone]; simp)]
        have hset : lookupKey k (recSet acc e.1 nullReading) = some nullReading := by
          rw [lookupKey_recSet, if_pos hek.symm]
        have := lookupKey_skipPhase_isSome rest (recSet acc e.1 nullReading) k
          (by rw [hset]; rfl)
        unfold skipPhase at this
        rw [this, hset]
      · unfold skipPhase
        rw [List.foldl_cons]
        by_cases hsome : (lookupKey e.1 acc).isSome
        · rw [if_pos hsome]
          exact ih acc k pos hm hnd.2 hnone
        · rw [if_neg hsome]
          have hne : e.1 ≠ k := by
            intro hcontra
            apply hnd.1
            rw [hcontra]
            exact List.mem_map_of_mem Prod.fst hm
          exact ih _ k pos hm hnd.2
            (by rw [lookupKey_recSet, if_neg (Ne.symm hne)]; exact hnone)

/-- C10 helper: `skipPhase` over fresh, duplicate-free keys appends exactly
those keys. -/
theorem skipPhase_keys :
    ∀ (l : List (String × (JNum × JNum))) (acc : RecordMap BalloonWeather),
      (∀ e ∈ l, lookupKey e.1 acc = none) → (l.map Prod.fst).Nodup →
      (skipPhase l acc).map Prod.fst = acc.map Prod.fst ++ l.map Prod.fst := by
  intro l
  induction l with
  | nil => intro acc _ _; simp [skipPhase]
  | cons e rest ih =>
      intro acc hfresh hnd
      simp only [List.map_cons, List.nodup_cons] at hnd
      unfold skipPhase
      rw [List.foldl_cons]
      rw [if_neg (by rw [hfresh e (List.mem_cons_self _ _)]; simp)]
      have hnotmem : e.1 ∉ acc.map Prod.fst := by
        intro hcontra
        have := (lookupKey_isSome_iff acc e.1).2 hcontra
        rw [hfresh e (List.mem_cons_self _ _)] at this
        simp at this
      have hkeys := recSet_keys_not_mem acc e.1 nullReading hnotmem
      have IH := ih (recSet acc e.1 nullReading) ?_ hnd.2
      · unfold skipPhase at IH
        rw [IH, hkeys]
        simp
      · intro e' he'
        rw [lookupKey_recSet]
        rw [if_neg ?_]
        · exact hfresh e' (List.mem_cons_of_mem _ he')
        · intro hcontra
          apply hnd.1
          rw [← hcontra]
          exact List.mem_map_of_mem Prod.fst he'

/-- C10: `fetchWeatherForBalloons` queries the weather provider for exactly
the first `MAX_BALLOONS_WITH_WEATHER = 50` balloons in enumeration order —
each of those is mapped to its fetched reading (or the all-null reading when
the fetch fails); every balloon beyond the first 50 is mapped to the all-null
reading; and the result holds exactly one entry per input balloon. -/
theorem weather_capped_at_fifty (coordWx : JNum × JNum → Option BalloonWeather)
    (latest : List (String × (JNum × JNum)))
    (hnd : (latest.map Prod.fst).Nodup) :
    (fetchWeatherForBalloons coordWx latest).2 =
        (latest.take MAX_BALLOONS_WITH_WEATHER).map Prod.snd
  ∧ (∀ k pos, (k, pos) ∈ latest.take MAX_BALLOONS_WITH_WEATHER →
       lookupKey k (fetchWeatherForBalloons coordWx latest).1 =
         some ((coordWx pos).getD nullReading))
  ∧ (∀ k pos, (k, pos) ∈ latest.drop MAX_BALLOONS_WITH_WEATHER →
       lookupKey k (fetchWeatherForBalloons coordWx latest).1 = some nullReading)
  ∧ (fetchWeatherForBalloons coordWx latest).1.map Prod.fst =
      latest.map Prod.fst := by
  have hsplit : latest.take MAX_BALLOONS_WITH_WEATHER ++
      latest.drop MAX_BALLOONS_WITH_WEATHER = latest := List.take_append_drop _ _
  have hndparts : ((latest.take MAX_BALLOONS_WITH_WEATHER).map Prod.fst).Nodup ∧
      ((latest.drop MAX_BALLOONS_WITH_WEATHER).map Prod.fst).Nodup ∧
      ∀ k, k ∈ (latest.take MAX_BALLOONS_WITH_WEATHER).map Prod.fst →
        k ∉ (latest.drop MAX_BALLOONS_WITH_WEATHER).map Prod.fst := by
    have : (((latest.take MAX_BALLOONS_WITH_WEATHER).map Prod.fst) ++
        ((latest.drop MAX_BALLOONS_WITH_WEATHER).map Prod.fst)).Nodup := by
      rw [← List.map_append, hsplit]; exact hnd
    rw [List.nodup_append] at this
    exact ⟨this.1, this.2.1, fun k hk hk' => this.2.2 hk hk'⟩
  refine ⟨rfl, ?_, ?_, ?_⟩
  · intro k pos hmem
    have hq := lookupKey_queryPhase_mem coordWx _ [] k pos hmem hndparts.1
    have hsome : (lookupKey k
        (queryPhase coordWx (latest.take MAX_BALLOONS_WITH_WEATHER) [])).isSome := by
      rw [hq]; rfl
    show lookupKey k (skipPhase _ _) = _
    rw [lookupKey_skipPhase_isSome _ _ k hsome, hq]
  · intro k pos hmem
    have hknot : k ∉ (latest.take MAX_BALLOONS_WITH_WEATHER).map Prod.fst := by
      intro hk
      exact hndparts.2.2 k hk (List.mem_map_of_mem Prod.fst hmem)
    have hq := lookupKey_queryPhase_not_mem coordWx _ [] k hknot
    show lookupKey k (skipPhase _ _) = _
    exact lookupKey_skipPhase_mem _ _ k pos hmem hndparts.2.1 (by rw [hq]; rfl)
  · have hqkeys := queryPhase_keys coordWx (latest.take MAX_BALLOONS_WITH_WEATHER) []
      (by intro e _; simp) hndparts.1
    have hskeys := skipPhase_keys (latest.drop MAX_BALLOONS_WITH_WEATHER)
      (queryPhase coordWx (latest.take MAX_BALLOONS_WITH_WEATHER) []) ?_ hndparts.2.1
    · show (skipPhase _ _).map Prod.fst = _
      rw [hskeys, hqkeys]
      simp only [List.map_nil, List.nil_append]
      rw [← List.map_append, hsplit]
    · intro e he
      have hnot : e.1 ∉ (latest.take MAX_BALLOONS_WITH_WEATHER).map Prod.fst := by
        intro hk
        exact hndparts.2.2 e.1 hk (List.mem_map_of_mem Prod.fst he)
      rw [lookupKey_queryPhase_not_mem coordWx _ [] e.1 hnot]
      rfl

/-- C10 witness: with 51 balloons, the 51st (index 50, beyond the cap) is
mapped to the all-null reading. -/
theorem weather_capped_at_fifty_witness :
    (c10Latest.map Prod.fst).Nodup ∧
      lookupKey "b50" (fetchWeatherForBalloons (fun _ => none) c10Latest).1 =
        some nullReading :=
  ⟨by decide,
   (weather_capped_at_fifty (fun _ => none) c10Latest (by decide)).2.2.1
      "b50" (.fin 0, .fin 0) (by decide)⟩

/-- C4 helper: with no configured cache client, the batch loop never issues a
cache write. -/
theorem runBatches_writes_noClient (oracle : Nat → Nat → OMResponse) (ttl : ℚ) :
    ∀ (batches : List (List Cell)) (bIdx : Nat) (st : BatchState),
      (runBatches oracle .noClient ttl batches bIdx st).writes = st.writes := by
  intro batches
  induction batches with
  | nil => intro bIdx st; rfl
  | cons batch rest ih =>
      intro bIdx st
      rw [runBatches]
      rw [ih]
      simp [cacheWritesEnabled]

/-- C4 counterexample: with a configured-but-unreachable cache client (its
`mget` rejects), the enrichment call itself rejects instead of treating all
cells as absent — the route handler then answers its 500 error response. -/
theorem unreachable_cache_fails_request :
    fetchWeatherForAllBalloons .broken 900 oracle404 0 c5Bal = Except.error () := rfl

/-- C4 amended: when the cache service is not configured (`getRedisClient()`
returns null), the lookup behaves as all cells absent — every cell goes
through the remote batch loop starting from an empty cell-weather record —
cache writes are skipped, and the request completes.  When a configured
client's bulk lookup rejects (service unreachable), the exception propagates
and the request fails; only the not-configured case degrades gracefully. -/
theorem cache_not_configured_bypassed (ttl : ℚ) (oracle : Nat → Nat → OMResponse)
    (t0 : Int) (bal : TrackMap) :
    ∃ out, fetchWeatherForAllBalloons .noClient ttl oracle t0 bal = Except.ok out
      ∧ out.writes = []
      ∧ out.cellWeather = (runBatches oracle .noClient ttl
          (chunksOf WEATHER_BATCH_SIZE (clusterLatestPointsIntoCells bal)) 0
          { limiter := { windowStart := t0, requestsInWindow := 0 }
            clock := t0
            cellW := []
            writes := [] }).cellW := by
  refine ⟨_, rfl, ?_, rfl⟩
  exact runBatches_writes_noClient oracle ttl _ 0 _

/-- C5 helper: looking a balloon up in `assignCell` yields the assigned
reading exactly when the balloon is among the assigned ids. -/
theorem lookupKey_assignCell :
    ∀ (ids : List String) (acc : RecordMap BalloonWeather)
      (wx : BalloonWeather) (b : String),
      lookupKey b (assignCell acc wx ids) =
        if b ∈ ids then some wx else lookupKey b acc := by
  intro ids
  induction ids with
  | nil => intro acc wx b; simp [assignCell]
  | cons i rest ih =>
      intro acc wx b
      show lookupKey b (assignCell (recSet acc i wx) wx rest) = _
      rw [ih]
      by_cases hb : b ∈ rest
      · simp [hb]
      · simp only [hb, if_false, lookupKey_recSet, List.mem_cons]
        by_cases hbi : b = i <;> simp [hbi, hb]

/-- C5 helper: the fan-out leaves balloons outside every cell untouched. -/
theorem lookupKey_fanOutAux_not_mem (cellW : RecordMap BalloonWeather) :
    ∀ (cells : List Cell) (acc : RecordMap BalloonWeather) (b : String),
      (∀ c ∈ cells, b ∉ c.balloonIds) →
      lookupKey b (cells.foldl (fanOutStep cellW) acc) = lookupKey b acc := by
  intro cells
  induction cells with
  | nil => intro acc b _; rfl
  | cons c rest ih =>
      intro acc b hb
      rw [List.foldl_cons, ih _ b (fun c' hc' => hb c' (List.mem_cons_of_mem _ hc'))]
      unfold fanOutStep
      cases lookupKey c.key cellW with
      | none => rfl
      | some wx =>
          rw [lookupKey_assignCell, if_neg (hb c (List.mem_cons_self _ _))]

/-- C5 helper: a balloon contained in some cell (all of whose containing
cells share key `K`) resolves to `cellW`'s entry at `K`. -/
theorem lookupKey_fanOutAux_mem (cellW : RecordMap BalloonWeather) :
    ∀ (cells : List Cell) (acc : RecordMap BalloonWeather) (b : String) (K : String),
      (∀ c ∈ cells, b ∈ c.balloonIds → c.key = K) →
      (∃ c ∈ cells, b ∈ c.balloonIds) →
      lookupKey b (cells.foldl (fanOutStep cellW) acc) =
        match lookupKey K cellW with
        | some wx => some wx
        | none => lookupKey b acc := by
  intro cells
  induction cells with
  | nil =>
      intro acc b K _ hex
      obtain ⟨c, hc, _⟩ := hex
      simp at hc
  | cons c rest ih =>
      intro acc b K hall hex
      rw [List.foldl_cons]
      by_cases hbrest : ∃ c' ∈ rest, b ∈ c'.balloonIds
      · rw [ih _ b K (fun c' hc' => hall c' (List.mem_cons_of_mem _ hc')) hbrest]
        cases hK : lookupKey K cellW with
        | some wx => rfl
        | none =>
            unfold fanOutStep
            by_cases hbc : b ∈ c.balloonIds
            · rw [hall c (List.mem_cons_self _ _) hbc, hK]
            · cases lookupKey c.key cellW with
              | none => rfl
              | some wx => rw [lookupKey_assignCell, if_neg hbc]
      · have hbc : b ∈ c.balloonIds := by
          obtain ⟨c', hc', hb'⟩ := hex
          rcases List.mem_cons.1 hc' with h | h
          · rw [← h]; exact hb'
          · exact absurd ⟨c', h, hb'⟩ hbrest
        push_neg at hbrest
        rw [lookupKey_fanOutAux_not_mem cellW rest _ b hbrest]
        unfold fanOutStep
        rw [hall c (List.mem_cons_self _ _) hbc]
        cases hK : lookupKey K cellW with
        | none => rfl
        | some wx => rw [lookupKey_assignCell, if_pos hbc]

/-- C5 helper: every id in a cell of `addToCell`'s output is either the
freshly pushed id in the target key's cell, or was already in a cell with the
same key. -/
theorem mem_addToCell_sound :
    ∀ (cells : List Cell) (key : String) (latC lonC : JNum) (id : String)
      (c : Cell), c ∈ addToCell cells key latC lonC id →
      ∀ b ∈ c.balloonIds,
        (b = id ∧ c.key = key) ∨ ∃ c0 ∈ cells, b ∈ c0.balloonIds ∧ c0.key = c.key := by
  intro cells
  induction cells with
  | nil =>
      intro key latC lonC id c hc b hb
      simp only [addToCell, List.mem_singleton] at hc
      subst hc
      simp only [List.mem_singleton] at hb
      exact Or.inl ⟨hb, rfl⟩
  | cons c₀ rest ih =>
      intro key latC lonC id c hc b hb
      by_cases hk : c₀.key = key
      · simp only [addToCell, if_pos hk, List.mem_cons] at hc
        rcases hc with hc | hc
        · subst hc
          simp only [List.mem_append, List.mem_singleton] at hb
          rcases hb with hb | hb
          · exact Or.inr ⟨c₀, List.mem_cons_self _ _, hb, rfl⟩
          · exact Or.inl ⟨hb, hk⟩
        · exact Or.inr ⟨c, List.mem_cons_of_mem _ hc, hb, rfl⟩
      · simp only [addToCell, if_neg hk, List.mem_cons] at hc
        rcases hc with hc | hc
        · subst hc
          exact Or.inr ⟨c, List.mem_cons_self _ _, hb, rfl⟩
        · rcases ih key latC lonC id c hc b hb with h | ⟨c1, hc1, hb1, hk1⟩
          · exact Or.inl h
          · exact Or.inr ⟨c1, List.mem_cons_of_mem _ hc1, hb1, hk1⟩

/-- C5 helper: `addToCell` always leaves the pushed id in a cell keyed `key`. -/
theorem addToCell_complete :
    ∀ (cells : List Cell) (key : String) (latC lonC : JNum) (id : String),
      ∃ c ∈ addToCell cells key latC lonC id, c.key = key ∧ id ∈ c.balloonIds := by
  intro cells
  induction cells with
  | nil =>
      intro key latC lonC id
      exact ⟨⟨key, latC, lonC, [id]⟩, List.mem_singleton.2 rfl, rfl, List.mem_singleton.2 rfl⟩
  | cons c₀ rest ih =>
      intro key latC lonC id
      by_cases hk : c₀.key = key
      · refine ⟨{ c₀ with balloonIds := c₀.balloonIds ++ [id] }, ?_, hk, by simp⟩
        simp [addToCell, if_pos hk]
      · obtain ⟨c, hc, hkey, hid⟩ := ih key latC lonC id
        exact ⟨c, by simp [addToCell, if_neg hk, List.mem_cons, hc], hkey, hid⟩

/-- C5 helper: `addToCell` keeps every existing id in a cell of its key. -/
theorem addToCell_persist :
    ∀ (cells : List Cell) (key : String) (latC lonC : JNum) (id : String)
      (c0 : Cell) (b : String), c0 ∈ cells → b ∈ c0.balloonIds →
      ∃ c ∈ addToCell cells key latC lonC id, c.key = c0.key ∧ b ∈ c.balloonIds := by
  intro cells
  induction cells with
  | nil => intro key latC lonC id c0 b hc0 _; simp at hc0
  | cons c₁ rest ih =>
      intro key latC lonC id c0 b hc0 hb
      by_cases hk : c₁.key = key
      · rcases List.mem_cons.1 hc0 with h | h
        · refine ⟨{ c₁ with balloonIds := c₁.balloonIds ++ [id] }, ?_, by rw [← h], ?_⟩
          · simp [addToCell, if_pos hk]
          · simp only [List.mem_append]
            exact Or.inl (h ▸ hb)
        · exact ⟨c0, by simp [addToCell, if_pos hk, List.mem_cons, h], rfl, hb⟩
      · rcases List.mem_cons.1 hc0 with h | h
        · exact ⟨c0, by simp [addToCell, if_neg hk, List.mem_cons, h], rfl, hb⟩
        · obtain ⟨c, hc, hkey, hbc⟩ := ih key latC lonC id c0 b h hb
          exact ⟨c, by simp [addToCell, if_neg hk, List.mem_cons, hc], hkey, hbc⟩

/-- C5 helper: any membership in the clustering fold traces back to the
accumulator or to some processed track whose latest point keys the cell. -/
theorem cluster_sound :
    ∀ (bal : TrackMap) (acc : List Cell) (c : Cell),
      c ∈ bal.foldl clusterStep acc → ∀ b ∈ c.balloonIds,
      (∃ c0 ∈ acc, b ∈ c0.balloonIds ∧ c0.key = c.key) ∨
      (∃ kt ∈ bal, kt.2.id = b ∧
        ∃ p rest, kt.2.points = p :: rest ∧ cellKeyOf p = c.key) := by
  intro bal
  induction bal with
  | nil =>
      intro acc c hc b hb
      exact Or.inl ⟨c, hc, hb, rfl⟩
  | cons kt tail ih =>
      intro acc c hc b hb
      rw [List.foldl_cons] at hc
      rcases ih (clusterStep acc kt) c hc b hb with ⟨c0, hc0, hb0, hk0⟩ | hrec
      · cases hpts : kt.2.points with
        | nil =>
            rw [clusterStep, hpts] at hc0
            exact Or.inl ⟨c0, hc0, hb0, hk0⟩
        | cons latest more =>
            rw [clusterStep, hpts] at hc0
            rcases mem_addToCell_sound acc (cellKeyOf latest) _ _ kt.2.id c0 hc0 b hb0
              with ⟨hbid, hck⟩ | ⟨c1, hc1, hb1, hk1⟩
            · exact Or.inr ⟨kt, List.mem_cons_self _ _, hbid.symm,
                latest, more, hpts, by rw [← hck, hk0]⟩
            · exact Or.inl ⟨c1, hc1, hb1, by rw [hk1, hk0]⟩
      · obtain ⟨kt', hkt', hrest⟩ := hrec
        exact Or.inr ⟨kt', List.mem_cons_of_mem _ hkt', hrest⟩

/-- C5 helper: ids already clustered survive the rest of the fold. -/
theorem cluster_persist :
    ∀ (bal : TrackMap) (acc : List Cell) (c0 : Cell) (b : String),
      c0 ∈ acc → b ∈ c0.balloonIds →
      ∃ c ∈ bal.foldl clusterStep acc, c.key = c0.key ∧ b ∈ c.balloonIds := by
  intro bal
  induction bal with
  | nil => intro acc c0 b hc0 hb; exact ⟨c0, hc0, rfl, hb⟩
  | cons kt tail ih =>
      intro acc c0 b hc0 hb
      rw [List.foldl_cons]
      cases hpts : kt.2.points with
      | nil =>
          have : clusterStep acc kt = acc := by rw [clusterStep, hpts]
          rw [this]
          exact ih acc c0 b hc0 hb
      | cons latest more =>
          have hstep : clusterStep acc kt =
              addToCell acc (cellKeyOf latest) (roundToGrid latest.lat GRID_DEGREES)
                (roundToGrid latest.lon GRID_DEGREES) kt.2.id := by
            rw [clusterStep, hpts]
          rw [hstep]
          obtain ⟨c1, hc1, hk1, hb1⟩ := addToCell_persist acc (cellKeyOf latest)
            (roundToGrid latest.lat GRID_DEGREES) (roundToGrid latest.lon GRID_DEGREES)
            kt.2.id c0 b hc0 hb
          obtain ⟨c, hc, hk, hbc⟩ := ih _ c1 b hc1 hb1
          exact ⟨c, hc, by rw [hk, hk1], hbc⟩

/-- C5 helper: every clustered track ends with its id in the cell keyed by
its latest point. -/
theorem cluster_complete :
    ∀ (bal : TrackMap) (acc : List Cell) (kt : String × BalloonTrack)
      (p : BalloonPoint) (rest : List BalloonPoint),
      kt ∈ bal → kt.2.points = p :: rest →
      ∃ c ∈ bal.foldl clusterStep acc, c.key = cellKeyOf p ∧ kt.2.id ∈ c.balloonIds := by
  intro bal
  induction bal with
  | nil => intro acc kt p rest hkt _; simp at hkt
  | cons kt₀ tail ih =>
      intro acc kt p rest hkt hpts
      rw [List.foldl_cons]
      rcases List.mem_cons.1 hkt with h | h
      · subst h
        have hstep : clusterStep acc kt =
            addToCell acc (cellKeyOf p) (roundToGrid p.lat GRID_DEGREES)
              (roundToGrid p.lon GRID_DEGREES) kt.2.id := by
          rw [clusterStep, hpts]
        rw [hstep]
        obtain ⟨c1, hc1, hk1, hb1⟩ := addToCell_complete acc (cellKeyOf p)
          (roundToGrid p.lat GRID_DEGREES) (roundToGrid p.lon GRID_DEGREES) kt.2.id
        obtain ⟨c, hc, hk, hbc⟩ := cluster_persist tail _ c1 kt.2.id hc1 hb1
        exact ⟨c, hc, by rw [hk, hk1], hbc⟩
      · exact ih (clusterStep acc kt₀) kt p rest h hpts

/-- C5 helper: with duplicate-free keys, a key determines its track. -/
theorem nodup_keys_eq_val (bal : TrackMap) (k : String) (v₁ v₂ : BalloonTrack) :
    (bal.map Prod.fst).Nodup → (k, v₁) ∈ bal → (k, v₂) ∈ bal → v₁ = v₂ := by
  induction bal with
  | nil => intro _ h _; simp at h
  | cons kt tail ih =>
      intro hnd h1 h2
      simp only [List.map_cons, List.nodup_cons] at hnd
      rcases List.mem_cons.1 h1 with h1 | h1 <;> rcases List.mem_cons.1 h2 with h2 | h2
      · rw [← h1] at h2
        injection h2 with _ hv
        exact hv.symm
      · exfalso
        apply hnd.1
        have hk : kt.1 = k := by rw [← h1]
        rw [hk]
        exact List.mem_map_of_mem Prod.fst h2
      · exfalso
        apply hnd.1
        have hk : kt.1 = k := by rw [← h2]
        rw [hk]
        exact List.mem_map_of_mem Prod.fst h1
      · exact ih hnd.2 h1 h2

/-- C5 helper: under the track-map well-formedness that `buildBalloonHistory`
guarantees, looking a balloon up in the fan-out equals looking its latest
point's cell key up in the cell-weather record. -/
theorem lookupKey_fanOut_cluster (bal : TrackMap) (cw : RecordMap BalloonWeather)
    (b : String) (t : BalloonTrack) (p : BalloonPoint) (rest : List BalloonPoint)
    (hnd : (bal.map Prod.fst).Nodup) (hid : ∀ kt ∈ bal, kt.2.id = kt.1)
    (hmem : (b, t) ∈ bal) (hpts : t.points = p :: rest) :
    lookupKey b (fanOut (clusterLatestPointsIntoCells bal) cw) =
      lookupKey (cellKeyOf p) cw := by
  have hex : ∃ c ∈ clusterLatestPointsIntoCells bal,
      c.key = cellKeyOf p ∧ b ∈ c.balloonIds := by
    have hc := cluster_complete bal [] (b, t) p rest hmem hpts
    have hidt : t.id = b := hid (b, t) hmem
    rw [hidt] at hc
    exact hc
  have hall : ∀ c ∈ clusterLatestPointsIntoCells bal,
      b ∈ c.balloonIds → c.key = cellKeyOf p := by
    intro c hc hb
    rcases cluster_sound bal [] c hc b hb with ⟨c0, hc0, _⟩ | hrec
    · simp at hc0
    · obtain ⟨kt', hkt', hidb, p', rest', hpts', hkey'⟩ := hrec
      have hfst : kt'.1 = b := by rw [← hid kt' hkt', hidb]
      have hpair : (b, kt'.2) ∈ bal := by
        have : kt' = (b, kt'.2) := by
          rw [← hfst]
        rw [← this]
        exact hkt'
      have hteq : kt'.2 = t := nodup_keys_eq_val bal b kt'.2 t hnd hpair hmem
      rw [hteq, hpts] at hpts'
      injection hpts' with hpe hre
      rw [← hkey', ← hpe]
  unfold fanOut
  obtain ⟨c, hc, hck, hbc⟩ := hex
  rw [lookupKey_fanOutAux_mem cw (clusterLatestPointsIntoCells bal) [] b
    (cellKeyOf p) hall ⟨c, hc, hbc⟩]
  cases lookupKey (cellKeyOf p) cw with
  | none => rfl
  | some wx => rfl

/-- C5 helper: a successful enrichment's `latestWeather` is exactly the
fan-out of its final `cellWeather` over the clustered cells. -/
theorem pipeOut_latestWeather (redis : CacheClient) (ttl : ℚ)
    (oracle : Nat → Nat → OMResponse) (t0 : Int) (bal : TrackMap) (out : PipeOut)
    (hrun : fetchWeatherForAllBalloons redis ttl oracle t0 bal = Except.ok out) :
    out.latestWeather = fanOut (clusterLatestPointsIntoCells bal) out.cellWeather := by
  simp only [fetchWeatherForAllBalloons] at hrun
  cases hm : mgetPhase redis (clusterLatestPointsIntoCells bal) with
  | error e =>
      rw [hm] at hrun
      simp at hrun
  | ok pair =>
      obtain ⟨cw0, missing⟩ := pair
      rw [hm] at hrun
      simp only [Except.ok.injEq] at hrun
      subst hrun
      rfl

/-- C5: in every successful enrichment response over a well-formed track map,
two balloons whose latest points share a cell key receive the same entry
(hence an identical reading when resolved), and a balloon whose cell key
never resolved in `cellWeather` has no entry in the per-balloon map. -/
theorem same_cell_same_reading (redis : CacheClient) (ttl : ℚ)
    (oracle : Nat → Nat → OMResponse) (t0 : Int) (bal : TrackMap) (out : PipeOut)
    (hnd : (bal.map Prod.fst).Nodup) (hid : ∀ kt ∈ bal, kt.2.id = kt.1)
    (hrun : fetchWeatherForAllBalloons redis ttl oracle t0 bal = Except.ok out) :
    (∀ b1 t1 p1 r1 b2 t2 p2 r2,
        (b1, t1) ∈ bal → t1.points = p1 :: r1 →
        (b2, t2) ∈ bal → t2.points = p2 :: r2 →
        cellKeyOf p1 = cellKeyOf p2 →
        lookupKey b1 out.latestWeather = lookupKey b2 out.latestWeather)
  ∧ (∀ b t p r, (b, t) ∈ bal → t.points = p :: r →
        lookupKey (cellKeyOf p) out.cellWeather = none →
        lookupKey b out.latestWeather = none) := by
  have hshape := pipeOut_latestWeather redis ttl oracle t0 bal out hrun
  constructor
  · intro b1 t1 p1 r1 b2 t2 p2 r2 hm1 hp1 hm2 hp2 hkey
    rw [hshape,
      lookupKey_fanOut_cluster bal out.cellWeather b1 t1 p1 r1 hnd hid hm1 hp1,
      lookupKey_fanOut_cluster bal out.cellWeather b2 t2 p2 r2 hnd hid hm2 hp2,
      hkey]
  · intro b t p r hm hp hnone
    rw [hshape,
      lookupKey_fanOut_cluster bal out.cellWeather b t p r hnd hid hm hp, hnone]

/-- C5 witness: a one-balloon run with no cache and a failing weather
endpoint completes with an empty cell-weather record, and the balloon gets no
entry in the per-balloon map. -/
theorem same_cell_same_reading_witness :
    fetchWeatherForAllBalloons .noClient 900 oracle404 0 c5Bal =
        Except.ok ⟨[], [], []⟩
  ∧ lookupKey "b" (PipeOut.mk [] [] []).latestWeather = none :=
  ⟨rfl,
   (same_cell_same_reading .noClient 900 oracle404 0 c5Bal ⟨[], [], []⟩
      (by decide) (by decide) rfl).2 "b" ⟨"b", [c5Pt]⟩ c5Pt [] (by decide) rfl rfl⟩

end WeatherVoyager
